import Mathlib

/-!
Verification of the extraction-and-orchestration pipeline of the
patent-news-get-browser crawler.

The development shallowly embeds the pipeline's decision logic:

* `parseDate`        — the date normalizer (src/crawler/engine.ts, `parseDate`)
* `getPageUrls`      — the pagination resolver (src/crawler/engine.ts, `getPageUrls`)
* `crawlListPage`    — the list extractor (src/crawler/engine.ts, `crawlListPage`)
* `crawlDetailPage`  — the detail extractor (src/crawler/engine.ts, `crawlDetailPage`)
* `crawl`            — the crawl orchestrator (src/crawler/engine.ts, `crawl`)
* `generateSummary` / `generateSummaryBatch` — the summarization client (src/ai/qwen.ts)

External collaborators (the headless browser's query results, the Readability
black box, JavaScript's generic `new Date(string)` parsing, `new URL`
resolution and the summarization backend) are modelled as explicit inputs:
a rendered page is represented by the observable answers it gives to the
configured selector queries, and effectful calls are represented by result
values (`Option`/sum types), with thrown exceptions modelled as distinguished
outcomes.  Wall-clock fields (`crawl_date`) and delays are not modelled.
-/

/-! ## JavaScript string primitives used by the source -/

/-- The character class matched by `\s` in a JavaScript regular expression
(also the set trimmed by `String.prototype.trim`). -/
def jsWhitespace (c : Char) : Bool :=
  c = ' ' || c = '\t' || c = '\n' || c.val = 11 || c.val = 12 || c = '\r' ||
  c.val = 0xa0 || c.val = 0x1680 || (0x2000 ≤ c.val && c.val ≤ 0x200a) ||
  c.val = 0x2028 || c.val = 0x2029 || c.val = 0x202f || c.val = 0x205f ||
  c.val = 0x3000 || c.val = 0xfeff

/-- `String.prototype.trim` on a character list. -/
def jsTrimList (cs : List Char) : List Char :=
  ((cs.dropWhile jsWhitespace).reverse.dropWhile jsWhitespace).reverse

/-- `String.prototype.trim`. -/
def jsTrim (s : String) : String :=
  String.mk (jsTrimList s.data)

/-- `href.startsWith("http")` (the absolute-URL test of the list
extractor). -/
def startsWithHttp (s : String) : Bool :=
  match s.data with
  | 'h' :: 't' :: 't' :: 'p' :: _ => true
  | _ => false

/-- `str.replace(pat, repl)` with a plain-string pattern: JavaScript replaces
only the first occurrence.  (`pat` is always the non-empty literal page
placeholder at the call site.) -/
def jsStringReplaceFirst (s pat repl : String) : String :=
  match s.splitOn pat with
  | [] => s
  | [x] => x
  | x :: rest => x ++ repl ++ String.intercalate pat rest

/-! ## Date normalizer (`parseDate`, src/crawler/engine.ts lines 82-104) -/

/-- One global pass of `.replace(/发布(时间|日期)[：:]/g, "")`: every
occurrence of a localized "published/date:" prefix is deleted. -/
def stripNoisePrefixes : List Char → List Char
  | '发' :: '布' :: '时' :: '间' :: '：' :: rest => stripNoisePrefixes rest
  | '发' :: '布' :: '时' :: '间' :: ':' :: rest => stripNoisePrefixes rest
  | '发' :: '布' :: '日' :: '期' :: '：' :: rest => stripNoisePrefixes rest
  | '发' :: '布' :: '日' :: '期' :: ':' :: rest => stripNoisePrefixes rest
  | c :: rest => c :: stripNoisePrefixes rest
  | [] => []

/-- `.replace(/[·\s]+$/, "")`: delete the trailing run of mid-dots and
whitespace. -/
def stripTrailingDotWs (cs : List Char) : List Char :=
  (cs.reverse.dropWhile (fun c => c = '·' || jsWhitespace c)).reverse

/-- The cleaning phase of `parseDate`: strip noise prefixes, strip the
trailing mid-dot/whitespace run, then trim. -/
def cleanDateStr (s : String) : String :=
  String.mk (jsTrimList (stripTrailingDotWs (stripNoisePrefixes s.data)))

/-- Numeric value of a digit string. -/
def natOfDigits (ds : List Char) : Nat :=
  ds.foldl (fun n c => n * 10 + (c.toNat - '0'.toNat)) 0

/-- Try to take exactly `n` decimal digits from the front of the input;
return the digits and the remainder. -/
def takeDigits : Nat → List Char → Option (List Char × List Char)
  | 0, cs => some ([], cs)
  | _ + 1, [] => none
  | n + 1, c :: cs =>
    if c.isDigit then
      match takeDigits n cs with
      | some (ds, rest) => some (c :: ds, rest)
      | none => none
    else none

/-- Character class `[年 slash dash]` (the year separator). -/
def yearSep (c : Char) : Bool := c = '年' || c = '/' || c = '-'

/-- Character class `[月 slash dash]` (the month separator). -/
def monthSep (c : Char) : Bool := c = '月' || c = '/' || c = '-'

/-- Match `(\d{1,2})[日]?` greedily at the front of the input (the optional
trailing `日` never fails, so the greedy choice of the day digits stands). -/
def matchDay (cs : List Char) : Option (List Char) :=
  match takeDigits 2 cs with
  | some (ds, _) => some ds
  | none =>
    match takeDigits 1 cs with
    | some (ds, _) => some ds
    | none => none

/-- After the year separator: match `(\d{1,2})[月 slash dash](\d{1,2})[日]?` with the
regex's greedy-then-backtrack choice for the month digits. -/
def matchMonthDay (cs : List Char) : Option (List Char × List Char) :=
  let attempt : List Char → List Char → Option (List Char × List Char) :=
    fun mds rest =>
      match rest with
      | c :: rest2 => if monthSep c then (matchDay rest2).map (fun ds => (mds, ds)) else none
      | [] => none
  let two :=
    match takeDigits 2 cs with
    | some (mds, rest) => attempt mds rest
    | none => none
  match two with
  | some r => some r
  | none =>
    match takeDigits 1 cs with
    | some (mds, rest) => attempt mds rest
    | none => none

/-- Try the whole pattern `(\d{4})[年 slash dash](\d{1,2})[月 slash dash](\d{1,2})[日]?` anchored
at the front of the input. -/
def matchYMDAt (cs : List Char) : Option (Nat × Nat × Nat) :=
  match takeDigits 4 cs with
  | none => none
  | some (yds, rest) =>
    match rest with
    | [] => none
    | c :: rest2 =>
      if yearSep c then
        (matchMonthDay rest2).map (fun p => (natOfDigits yds, natOfDigits p.1, natOfDigits p.2))
      else none

/-- `cleaned.match(/(\d{4})[年 slash dash](\d{1,2})[月 slash dash](\d{1,2})[日]?/)`: first
(leftmost) match anywhere in the string, returning the three numeric groups. -/
def matchYMD : List Char → Option (Nat × Nat × Nat)
  | [] => none
  | c :: cs =>
    match matchYMDAt (c :: cs) with
    | some r => some r
    | none => matchYMD cs

/-- A JavaScript `Date` value at calendar-day granularity: either a valid
calendar date or the `Invalid Date` object. -/
inductive DateVal where
  | valid (y m d : Nat)
  | invalid
deriving DecidableEq, Repr

/-- Gregorian leap-year test. -/
def isLeapYear (y : Nat) : Bool :=
  (y % 4 = 0 && y % 100 ≠ 0) || y % 400 = 0

/-- Number of days in a month. -/
def daysInMonth (y m : Nat) : Nat :=
  if m = 2 then (if isLeapYear y then 29 else 28)
  else if m = 4 || m = 6 || m = 9 || m = 11 then 30
  else 31

/-- `new Date("Y-M-D")` built from the three numeric groups of the strict
pattern: a valid calendar date when the components are in range, otherwise
the `Invalid Date` object. -/
def jsNewDateYMD (y m d : Nat) : DateVal :=
  if 1 ≤ m && m ≤ 12 && 1 ≤ d && d ≤ daysInMonth y m then DateVal.valid y m d
  else DateVal.invalid

/-- The date normalizer `parseDate` (src/crawler/engine.ts lines 82-104).
`js` models the engine's generic `new Date(string)` parser (an external
collaborator); `none` input models an absent (`undefined`/`null`) argument,
and a `none` result models returning `undefined` ("no date"). -/
def parseDate (js : String → DateVal) (dateStr : Option String) : Option DateVal :=
  match dateStr with
  | none => none
  | some s =>
    if s = "" then none
    else
      let cleaned := cleanDateStr s
      match matchYMD cleaned.data with
      | some (y, m, d) => some (jsNewDateYMD y m d)
      | none =>
        match js cleaned with
        | DateVal.valid y m d => some (DateVal.valid y m d)
        | DateVal.invalid => none

/-! ## Site configuration (src/config/types.ts) -/

structure ListPageConfig where
  articleSelector : String
  titleSelector : Option String
  linkSelector : String
  dateSelector : Option String
  descriptionSelector : Option String
deriving DecidableEq

structure DetailPageConfig where
  titleSelector : String
  contentSelector : String
  authorSelector : Option String
  dateSelector : Option String
  useReadability : Option Bool
deriving DecidableEq

structure PaginationConfig where
  enabled : Bool
  maxPages : Option Nat
  nextSelector : Option String
  urlPattern : Option String
  startPage : Option Nat
deriving DecidableEq

structure WebsiteConfig where
  name : String
  baseUrl : String
  url : String
  listPage : ListPageConfig
  detailPage : DetailPageConfig
  pagination : Option PaginationConfig
  delay : Option Nat
  userAgent : Option String
  maxArticles : Option Nat
  enabled : Option Bool
deriving DecidableEq

/-! ## Pagination resolver (`getPageUrls`, src/crawler/engine.ts lines 332-355) -/

/-- Body of the page-URL loop, structurally recursive on the number of
remaining iterations. -/
def buildPageUrlsAux (pat : String) : Nat → Nat → List String
  | 0, _ => []
  | fuel + 1, i =>
    jsStringReplaceFirst pat ("{page}") (toString i) :: buildPageUrlsAux pat fuel (i + 1)

/-- The loop `for (let i = startPage; i <= maxPages; i++)
urls.push(pattern.replace("{page}", i))`: it runs `maxPages + 1 - i`
iterations starting at `i`. -/
def buildPageUrls (pat : String) (maxPages : Nat) (i : Nat) : List String :=
  buildPageUrlsAux pat (maxPages + 1 - i) i

/-- The pagination resolver, translated from `getPageUrls`.  JavaScript
truthiness is rendered explicitly: an absent or `0` numeric field falls back
to the default (`maxPages || 1`, `startPage || 1`), and an empty URL pattern
counts as absent. -/
def getPageUrls (cfg : WebsiteConfig) : List String :=
  match cfg.pagination with
  | none => [cfg.url]
  | some pagination =>
    if pagination.enabled = false then [cfg.url]
    else
      match pagination.urlPattern with
      | some pat =>
        if pat = "" then [cfg.url]
        else
          let maxPages := match pagination.maxPages with
            | some m => if m = 0 then 1 else m
            | none => 1
          let startPage := match pagination.startPage with
            | some s => if s = 0 then 1 else s
            | none => 1
          buildPageUrls pat maxPages startPage
      | none => [cfg.url]

/-- Modelled from the claim C4 reference definition (spec §4.1): if pagination
is absent or disabled the result is `[config.url]`; if enabled with a URL
pattern, substitute the page placeholder for each integer from `startPage`
(default 1) to `maxPages` inclusive; if enabled without a pattern,
`[config.url]`.  The claim gives no default for an absent `maxPages`; `1` is
used, matching the code, so that the comparison isolates the cases the claim
does determine. -/
def getPageUrlsSpec (cfg : WebsiteConfig) : List String :=
  match cfg.pagination with
  | none => [cfg.url]
  | some pagination =>
    if pagination.enabled = false then [cfg.url]
    else
      match pagination.urlPattern with
      | some pat =>
        let startPage := pagination.startPage.getD 1
        let maxPages := pagination.maxPages.getD 1
        (List.range' startPage (maxPages + 1 - startPage)).map
          (fun i => jsStringReplaceFirst pat ("{page}") (toString i))
      | none => [cfg.url]

/-- The amended C4 reference definition: as `getPageUrlsSpec`, except that a
`startPage`/`maxPages` that is absent **or zero** defaults to 1 (JavaScript
`|| 1` truthiness), and an empty URL pattern counts as no pattern. -/
def getPageUrlsAmended (cfg : WebsiteConfig) : List String :=
  match cfg.pagination with
  | none => [cfg.url]
  | some pagination =>
    if pagination.enabled = false then [cfg.url]
    else
      match pagination.urlPattern with
      | some pat =>
        if pat = "" then [cfg.url]
        else
          let startPage := match pagination.startPage with
            | some s => if s = 0 then 1 else s
            | none => 1
          let maxPages := match pagination.maxPages with
            | some m => if m = 0 then 1 else m
            | none => 1
          (List.range' startPage (maxPages + 1 - startPage)).map
            (fun i => jsStringReplaceFirst pat ("{page}") (toString i))
      | none => [cfg.url]

/-! ## List extractor (`crawlListPage`, src/crawler/engine.ts lines 109-206)

A rendered list-page element is modelled by the answers the headless
browser gives to the configured queries:

* `titleQ` — `element.$eval(titleSelector, text)`: `none` models the call
  throwing (in particular, no descendant matches the selector);
* `linkQ` — `element.$(linkSelector)` followed by `getAttribute("href")`:
  the outer `none` models no matching descendant, `some none` a matching
  element without an href attribute;
* `dateQ`, `descQ` — like `titleQ` for the optional selectors.
-/

structure ListElement where
  ownText : String
  titleQ : Option String
  linkQ : Option (Option String)
  dateQ : Option String
  descQ : Option String
deriving DecidableEq

/-- The candidate summary produced per list item (`ListArticle` in the
source). -/
structure ListArticle where
  title : String
  url : String
  date : Option String
  description : Option String
deriving DecidableEq

/-- Per-element body of the extraction loop of `crawlListPage`.  `newURL`
models `new URL(href, baseUrl).href` (`none` = the constructor throws).
A `none` result covers both an item-level thrown exception (caught and
logged in the source) and the final `title && url` check failing — in
either case the item is not pushed. -/
def extractListItem (lp : ListPageConfig) (baseUrl : String)
    (newURL : String → String → Option String) (e : ListElement) : Option ListArticle :=
  let titleO : Option String :=
    match lp.titleSelector with
    | some _ => e.titleQ
    | none => some e.ownText
  match titleO with
  | none => none
  | some title =>
    let urlO : Option String :=
      match e.linkQ with
      | none => some ""
      | some none => some ""
      | some (some href) =>
        if startsWithHttp href then some href else newURL href baseUrl
    match urlO with
    | none => none
    | some url =>
      let date : Option String :=
        match lp.dateSelector with
        | some _ => e.dateQ
        | none => none
      let descr : Option String :=
        match lp.descriptionSelector with
        | some _ => e.descQ
        | none => none
      if title ≠ "" && url ≠ "" then some ⟨title, url, date, descr⟩ else none

/-- The list extractor `crawlListPage`: `none` for the page argument models a
page-level navigation/render failure (the source catches it and returns the
articles collected so far, i.e. the empty list). -/
def crawlListPage (lp : ListPageConfig) (baseUrl : String)
    (newURL : String → String → Option String)
    (page : Option (List ListElement)) : List ListArticle :=
  match page with
  | none => []
  | some elems => elems.filterMap (extractListItem lp baseUrl newURL)

/-! ## Detail extractor (`crawlDetailPage`, src/crawler/engine.ts lines 211-327) -/

/-- Outcome of a `page.$(selector)` + `evaluate(textContent.trim)` pair on a
detail page: the call threw, matched no element, or produced (possibly
empty) text. -/
inductive QueryRes where
  | err
  | noMatch
  | found (text : String)
deriving DecidableEq

/-- A rendered detail page, modelled by the answers to the four configured
queries plus the output of the external Readability capability
(`Readability(dom).parse()?.textContent`, `none` when the parse yields no
article). -/
structure DetailPage where
  titleQ : QueryRes
  contentQ : QueryRes
  authorQ : QueryRes
  dateQ : QueryRes
  readability : Option String
deriving DecidableEq

/-- The durable article record (`Article` in src/database/interfaces).
`crawl_date`/`update_date` are wall-clock timestamps and are not modelled;
`publish_date` holds a JavaScript `Date` value.  Optional fields that the
extractor never assigned are `none` (JavaScript `undefined`). -/
structure Article where
  title : String
  url : String
  source : String
  content : Option String
  author : Option String
  publish_date : Option DateVal
deriving DecidableEq

/-- JavaScript truthiness of `detailPage.useReadability`. -/
def useReadabilityOn (d : DetailPageConfig) : Bool :=
  d.useReadability.getD false

/-- The detail extractor `crawlDetailPage`.  `page = none` models a
navigation failure (the source's catch returns `null`).  `js` is the
generic date parser, as in `parseDate`. -/
def crawlDetailPage (cfg : WebsiteConfig) (js : String → DateVal)
    (articleUrl : String) (listArticle : Option ListArticle)
    (page : Option DetailPage) : Option Article :=
  match page with
  | none => none
  | some p =>
    let title : String :=
      match p.titleQ with
      | QueryRes.err =>
        match listArticle with
        | some la => la.title
        | none => ""
      | QueryRes.noMatch => ""
      | QueryRes.found t => t
    let content : Option String :=
      if useReadabilityOn cfg.detailPage then
        some (p.readability.getD "")
      else
        match p.contentQ with
        | QueryRes.found t => some t
        | _ => none
    let author : Option String :=
      match cfg.detailPage.authorSelector with
      | some _ =>
        match p.authorQ with
        | QueryRes.found t => some t
        | _ => none
      | none => none
    let pubFromDetail : Option DateVal :=
      match cfg.detailPage.dateSelector with
      | some _ =>
        match p.dateQ with
        | QueryRes.found t => parseDate js (some t)
        | _ => none
      | none => none
    let publish_date : Option DateVal :=
      match pubFromDetail with
      | some dv => some dv
      | none =>
        match listArticle with
        | some la =>
          match la.date with
          | some d => if d = "" then none else parseDate js (some d)
          | none => none
        | none => none
    some { title := title, url := articleUrl, source := cfg.name,
           content := content, author := author, publish_date := publish_date }

/-! ## Crawl orchestrator (`crawl`, src/crawler/engine.ts lines 360-418) -/

/-- The external world one crawl run interacts with: the rendering engine's
responses per URL, URL resolution, and the generic date parser. -/
structure World where
  listPages : String → Option (List ListElement)
  detailPages : String → Option DetailPage
  newURL : String → String → Option String
  js : String → DateVal

/-- JavaScript truthiness of `article.content` (`undefined` and `""` are
falsy). -/
def contentTruthy : Option String → Bool
  | some s => s ≠ ""
  | none => false

/-- The accumulation test of the orchestrator:
`article.title && article.content`. -/
def goodArticle (a : Article) : Bool :=
  a.title ≠ "" && contentTruthy a.content

/-- The cap test `this.config.maxArticles && count >= this.config.maxArticles`
(a `0` cap is falsy and therefore never triggers). -/
def capReached (maxArticles : Option Nat) (count : Nat) : Bool :=
  match maxArticles with
  | some m => if m = 0 then false else decide (m ≤ count)
  | none => false

/-- The detail fetch the orchestrator performs for one candidate:
`crawlDetailPage(listArticle.url, listArticle)` against the world's rendered
pages. -/
def detailResult (w : World) (cfg : WebsiteConfig) (item : ListArticle) : Option Article :=
  crawlDetailPage cfg w.js item.url (some item) (w.detailPages item.url)

/-- The inner loop of `crawl` over one list page's candidates.  Returns the
accumulated articles and the fetch trace: each detail fetch is recorded with
the candidate and the number of articles accumulated when the fetch
started. -/
def crawlDetailLoop (w : World) (cfg : WebsiteConfig) :
    List ListArticle → List Article → List (ListArticle × Nat) →
    List Article × List (ListArticle × Nat)
  | [], acc, fetched => (acc, fetched)
  | item :: rest, acc, fetched =>
    if capReached cfg.maxArticles acc.length then (acc, fetched)
    else
      let fetched2 := fetched ++ [(item, acc.length)]
      let acc2 :=
        match detailResult w cfg item with
        | some a => if goodArticle a then acc ++ [a] else acc
        | none => acc
      crawlDetailLoop w cfg rest acc2 fetched2

/-- Result of one orchestrator run: the article batch plus the visit/fetch
traces (each annotated with the accumulated count at the moment the page was
visited or the detail fetch started). -/
structure CrawlResult where
  articles : List Article
  visited : List (String × Nat)
  fetched : List (ListArticle × Nat)
deriving DecidableEq

/-- The outer loop of `crawl` over the pagination resolver's URLs. -/
def crawlPageLoop (w : World) (cfg : WebsiteConfig) :
    List String → List Article → List (String × Nat) → List (ListArticle × Nat) →
    CrawlResult
  | [], acc, visited, fetched => ⟨acc, visited, fetched⟩
  | u :: rest, acc, visited, fetched =>
    if capReached cfg.maxArticles acc.length then ⟨acc, visited, fetched⟩
    else
      let visited2 := visited ++ [(u, acc.length)]
      let items := crawlListPage cfg.listPage cfg.baseUrl w.newURL (w.listPages u)
      let step := crawlDetailLoop w cfg items acc fetched
      crawlPageLoop w cfg rest step.1 visited2 step.2

/-- The crawl orchestrator `crawl`. -/
def crawl (w : World) (cfg : WebsiteConfig) : CrawlResult :=
  crawlPageLoop w cfg (getPageUrls cfg) [] [] []

/-! ## Summarization client (src/ai/qwen.ts) -/

/-- One response of the external summarization backend: a successful
completion text, a rate-limit (HTTP 429) signal, or any other failure. -/
inductive BackendResp where
  | ok (text : String)
  | rateLimited
  | err
deriving DecidableEq

/-- Rendering of `article.publish_date.toLocaleString("zh-CN")` (display
detail of the prompt only). -/
def dateValToString : DateVal → String
  | DateVal.valid y m d => toString y ++ "/" ++ toString m ++ "/" ++ toString d
  | DateVal.invalid => "Invalid Date"

/-- `buildSummaryPrompt` (src/ai/qwen.ts lines 135-155): title, optional
author and publish date, content truncated to 3000 characters, plus the
instruction suffix. -/
def buildSummaryPrompt (a : Article) : String :=
  let p1 := "文章标题：" ++ a.title ++ "\n\n"
  let p2 := p1 ++ (match a.author with
    | some au => "作者：" ++ au ++ "\n\n"
    | none => "")
  let p3 := p2 ++ (match a.publish_date with
    | some dv => "发布时间：" ++ dateValToString dv ++ "\n\n"
    | none => "")
  let content := a.content.getD ""
  let truncated :=
    if content.length > 3000 then (content.take 3000) ++ "..." else content
  p3 ++ "文章内容：\n" ++ truncated ++ "\n\n" ++ "请为这篇文章生成200-300字的摘要："

/-- `generateSummary` (src/ai/qwen.ts lines 51-105).  `backend prompt n` is
the backend's response to the `n`-th attempt for this article.  On a
rate-limit response the source retries itself recursively without bound;
`fuel` bounds that recursion in the model (the claims proved below do not
depend on it).  Returns the summary (`none` = the source's `null`) together
with the list of articles for which a backend call was issued, one entry per
attempt. -/
def generateSummary (apiKey : String) (backend : String → Nat → BackendResp) :
    Nat → Nat → Article → Option String × List Article
  | 0, attempt, a =>
    if apiKey = "" then (none, [])
    else if contentTruthy a.content = false then (none, [])
    else
      match backend (buildSummaryPrompt a) attempt with
      | BackendResp.ok text => (some (jsTrim text), [a])
      | BackendResp.err => (none, [a])
      | BackendResp.rateLimited => (none, [a])
  | fuel2 + 1, attempt, a =>
    if apiKey = "" then (none, [])
    else if contentTruthy a.content = false then (none, [])
    else
      match backend (buildSummaryPrompt a) attempt with
      | BackendResp.ok text => (some (jsTrim text), [a])
      | BackendResp.err => (none, [a])
      | BackendResp.rateLimited =>
        let r := generateSummary apiKey backend fuel2 (attempt + 1) a
        (r.1, a :: r.2)

/-- `Map.prototype.set`: overwrite an existing key, otherwise append in
insertion order. -/
def mapSet (m : List (String × String)) (k v : String) : List (String × String) :=
  if m.any (fun p => p.1 = k) then
    m.map (fun p => if p.1 = k then (k, v) else p)
  else m ++ [(k, v)]

/-- The loop of `generateSummaryBatch`: skip articles with a falsy URL, call
`generateSummary`, and record the summary when it is truthy. -/
def summaryBatchLoop (apiKey : String) (backend : String → Nat → BackendResp)
    (fuel : Nat) :
    List Article → List (String × String) → List Article →
    List (String × String) × List Article
  | [], m, calls => (m, calls)
  | a :: rest, m, calls =>
    if a.url = "" then summaryBatchLoop apiKey backend fuel rest m calls
    else
      let r := generateSummary apiKey backend fuel 0 a
      let m2 :=
        match r.1 with
        | some s => if s = "" then m else mapSet m a.url s
        | none => m
      summaryBatchLoop apiKey backend fuel rest m2 (calls ++ r.2)

/-- `generateSummaryBatch` (src/ai/qwen.ts lines 110-130): returns the
URL-to-summary mapping together with the trace of backend calls issued. -/
def generateSummaryBatch (apiKey : String) (backend : String → Nat → BackendResp)
    (fuel : Nat) (articles : List Article) :
    List (String × String) × List Article :=
  summaryBatchLoop apiKey backend fuel articles [] []

/-! ## Pagination resolver: claim C4 -/

/-- Closed form of the page-URL loop body. -/
theorem buildPageUrlsAux_eq_range (pat : String) :
    ∀ fuel i, buildPageUrlsAux pat fuel i =
      (List.range' i fuel).map
        (fun n => jsStringReplaceFirst pat ("{page}") (toString n)) := by
  intro fuel
  induction fuel with
  | zero => intro i; rfl
  | succ k ih =>
    intro i
    rw [buildPageUrlsAux, ih (i + 1), List.range'_succ, List.map_cons]

/-- Closed form of the page-URL loop. -/
theorem buildPageUrls_eq_range (pat : String) (maxPages i : Nat) :
    buildPageUrls pat maxPages i =
      (List.range' i (maxPages + 1 - i)).map
        (fun n => jsStringReplaceFirst pat ("{page}") (toString n)) :=
  buildPageUrlsAux_eq_range pat (maxPages + 1 - i) i

/-- A site configuration on which the code and the claim's reference
pagination definitions disagree: pagination enabled with a URL pattern, and
`maxPages` explicitly set to `0`. -/
def cfgC4 : WebsiteConfig :=
  { name := "s", baseUrl := "http://b", url := "http://b/list",
    listPage := { articleSelector := ".item", titleSelector := none,
                  linkSelector := "a", dateSelector := none,
                  descriptionSelector := none },
    detailPage := { titleSelector := "h1", contentSelector := ".content",
                    authorSelector := none, dateSelector := none,
                    useReadability := none },
    pagination := some { enabled := true, maxPages := some 0,
                         nextSelector := none,
                         urlPattern := some "http://b/list?page={page}",
                         startPage := none },
    delay := none, userAgent := none, maxArticles := none, enabled := none }

/-- C4 counterexample: with pagination enabled, a URL pattern and
`maxPages = 0`, the claim's reference definition produces the empty sequence
(the range from 1 to 0 inclusive), but the code's resolver substitutes
`maxPages || 1 = 1` and produces one URL — so the resolver does not equal
the reference definition on every SiteConfig. -/
theorem getPageUrls_ne_spec_cex : getPageUrls cfgC4 ≠ getPageUrlsSpec cfgC4 := by
  decide

/-- C4 (amended): the pagination resolver equals the reference definition
amended so that `startPage` and `maxPages` default to 1 when absent **or
zero** (JavaScript `|| 1`), and an empty URL pattern counts as no pattern. -/
theorem getPageUrls_eq_amended (cfg : WebsiteConfig) :
    getPageUrls cfg = getPageUrlsAmended cfg := by
  unfold getPageUrls getPageUrlsAmended
  cases hp : cfg.pagination with
  | none => rfl
  | some p =>
    by_cases he : p.enabled = false
    · simp [he]
    · simp only [he, if_false]
      cases hu : p.urlPattern with
      | none => rfl
      | some pat =>
        by_cases hpe : pat = ""
        · simp [hpe]
        · simp only [hpe, if_false]
          exact buildPageUrls_eq_range pat _ _

/-! ## Date normalizer: claims C5 and C6 -/

/-- C5, the failing input: on `"2024-13-45"` the strict pattern matches with
an out-of-range month, and `parseDate` returns the resulting `Invalid Date`
object unchecked — contradicting the contract that the normalizer returns a
valid calendar date or "no date".  (The generic parser `js` is irrelevant
here: the strict-pattern branch returns first.) -/
theorem parseDate_returns_invalid_date (js : String → DateVal) :
    parseDate js (some ("2024-13-45")) = some DateVal.invalid := rfl

/-- If the strict pattern does not match the cleaned text and the generic
parser yields an invalid date, `parseDate` returns "no date". -/
theorem parseDate_generic_invalid (js : String → DateVal) (s : String)
    (hs : ¬ s = "") (hm : matchYMD (cleanDateStr s).data = none)
    (hj : js (cleanDateStr s) = DateVal.invalid) :
    parseDate js (some s) = none := by
  simp only [parseDate]
  rw [if_neg hs, hm, hj]

/-- C6: the three reference examples of the date normalizer.  The only fact
assumed of the engine's generic `new Date(string)` parser is that it rejects
the text `"not a date"` (the first two examples are settled by the strict
pattern alone). -/
theorem parseDate_examples (js : String → DateVal)
    (h : js ("not a date") = DateVal.invalid) :
    parseDate js (some ("2024年3月5日")) = some (DateVal.valid 2024 3 5) ∧
    parseDate js (some ("发布时间：2023-11-02 ·")) = some (DateVal.valid 2023 11 2) ∧
    parseDate js (some ("not a date")) = none := by
  refine ⟨rfl, rfl, parseDate_generic_invalid js _ (by decide) rfl h⟩

/-- A generic parser that rejects everything, witnessing the hypothesis of
`parseDate_examples`. -/
def jsAllInvalid : String → DateVal := fun _ => DateVal.invalid

/-- Witness for C6 at a concrete generic parser. -/
theorem parseDate_examples_witness :
    parseDate jsAllInvalid (some ("2024年3月5日")) = some (DateVal.valid 2024 3 5) ∧
    parseDate jsAllInvalid (some ("发布时间：2023-11-02 ·")) = some (DateVal.valid 2023 11 2) ∧
    parseDate jsAllInvalid (some ("not a date")) = none :=
  parseDate_examples jsAllInvalid rfl

/-! ## List extractor: claim C7 -/

/-- An emitted item passed the final `title && url` check. -/
theorem extractListItem_nonempty (lp : ListPageConfig) (b : String)
    (nu : String → String → Option String) (e : ListElement) (a : ListArticle)
    (h : extractListItem lp b nu e = some a) : a.title ≠ "" ∧ a.url ≠ "" := by
  simp only [extractListItem] at h
  repeat' split at h
  any_goals exact Option.noConfusion h
  all_goals (cases h; simp_all)

/-- An item whose link cannot be resolved (no descendant matches the link
selector, or the matched element has no href) is dropped. -/
theorem extractListItem_drops_unresolved (lp : ListPageConfig) (b : String)
    (nu : String → String → Option String) (e : ListElement)
    (h : e.linkQ = none ∨ e.linkQ = some none) :
    extractListItem lp b nu e = none := by
  rcases h with h | h <;>
    (simp only [extractListItem, h]; repeat' split <;> simp)

/-- List-page selector set of the C7 scenario
(`articleSelector=".item"`, `linkSelector="a"`). -/
def lpC7 : ListPageConfig :=
  { articleSelector := ".item", titleSelector := none, linkSelector := "a",
    dateSelector := none, descriptionSelector := none }

/-- URL resolver for the C7 scenario (never consulted: the scenario's links
are absolute). -/
def nuC7 : String → String → Option String := fun h b => some (b ++ "/" ++ h)

/-- Scenario element with a resolvable title and link. -/
def eC7a : ListElement :=
  { ownText := "Title A", titleQ := none, linkQ := some (some "http://x/a"),
    dateQ := none, descQ := none }

/-- Second scenario element with a resolvable title and link. -/
def eC7b : ListElement :=
  { ownText := "Title B", titleQ := none, linkQ := some (some "http://x/b"),
    dateQ := none, descQ := none }

/-- Scenario element with no link. -/
def eC7c : ListElement :=
  { ownText := "Title C", titleQ := none, linkQ := none,
    dateQ := none, descQ := none }

/-- C7: the list extractor emits an item only if both its extracted title
and its resolved URL are non-empty; an item with no resolvable link is
dropped; and on the reference scenario (three matching elements, two with
resolvable titles and links, one with no link) exactly two candidate
summaries are returned. -/
theorem crawlListPage_emission :
    (∀ (lp : ListPageConfig) (b : String) (nu : String → String → Option String)
       (elems : List ListElement), ∀ a ∈ crawlListPage lp b nu (some elems),
         a.title ≠ "" ∧ a.url ≠ "") ∧
    (∀ (lp : ListPageConfig) (b : String) (nu : String → String → Option String)
       (e : ListElement), (e.linkQ = none ∨ e.linkQ = some none) →
         extractListItem lp b nu e = none) ∧
    (crawlListPage lpC7 ("http://x") nuC7 (some [eC7a, eC7b, eC7c])).length = 2 := by
  refine ⟨?_, ?_, by decide⟩
  · intro lp b nu elems a ha
    simp only [crawlListPage, List.mem_filterMap] at ha
    obtain ⟨e, _, he⟩ := ha
    exact extractListItem_nonempty lp b nu e a he
  · intro lp b nu e h
    exact extractListItem_drops_unresolved lp b nu e h

/-- Witness for C7: the general parts applied to the concrete scenario. -/
theorem crawlListPage_emission_witness :
    ((ListArticle.mk ("Title A") ("http://x/a") none none).title ≠ "" ∧
     (ListArticle.mk ("Title A") ("http://x/a") none none).url ≠ "") ∧
    extractListItem lpC7 ("http://x") nuC7 eC7c = none :=
  ⟨crawlListPage_emission.1 lpC7 ("http://x") nuC7 [eC7a, eC7b, eC7c] _ (by decide),
   crawlListPage_emission.2.1 lpC7 ("http://x") nuC7 eC7c (Or.inl rfl)⟩

/-! ## Detail extractor title fallback: claim C3 -/

/-- Site configuration used by the C3 and C8 concrete instances (selector
mode, no optional selectors configured). -/
def cfgC3 : WebsiteConfig :=
  { name := "s", baseUrl := "http://x", url := "http://x/list",
    listPage := lpC7,
    detailPage := { titleSelector := "h1", contentSelector := ".content",
                    authorSelector := none, dateSelector := none,
                    useReadability := none },
    pagination := none, delay := none, userAgent := none,
    maxArticles := none, enabled := none }

/-- Candidate summary with a non-empty title, for the C3 instances. -/
def laC3 : ListArticle :=
  { title := "候选标题", url := "http://x/a", date := none, description := none }

/-- Detail page on which the title selector matches no element. -/
def dpC3 : DetailPage :=
  { titleQ := QueryRes.noMatch, contentQ := QueryRes.found "body text",
    authorQ := QueryRes.noMatch, dateQ := QueryRes.noMatch, readability := none }

/-- C3 counterexample: when the title selector matches no element (an
"empty result" rather than a thrown extraction), the code leaves the title
empty instead of falling back to the candidate summary's non-empty title. -/
theorem detail_title_no_fallback_cex :
    (crawlDetailPage cfgC3 jsAllInvalid ("http://x/a") (some laC3) (some dpC3)).map
        Article.title ≠ some laC3.title ∧
    dpC3.titleQ = QueryRes.noMatch ∧ laC3.title ≠ "" := by
  decide

/-- C3 (amended): the fallback to the candidate summary's title happens
exactly when title extraction **throws**; when the selector matches no
element or the matched element's text is empty, the article's title is the
empty string. -/
theorem detail_title_fallback (cfg : WebsiteConfig) (js : String → DateVal)
    (url : String) (la : ListArticle) (p : DetailPage) (_hla : la.title ≠ "") :
    (p.titleQ = QueryRes.err →
      (crawlDetailPage cfg js url (some la) (some p)).map Article.title =
        some la.title) ∧
    ((p.titleQ = QueryRes.noMatch ∨ p.titleQ = QueryRes.found "") →
      (crawlDetailPage cfg js url (some la) (some p)).map Article.title =
        some "") := by
  constructor
  · intro h
    simp [crawlDetailPage, h]
  · rintro (h | h) <;> simp [crawlDetailPage, h]

/-- Detail page on which the title extraction throws. -/
def dpC3w : DetailPage :=
  { titleQ := QueryRes.err, contentQ := QueryRes.found "body text",
    authorQ := QueryRes.noMatch, dateQ := QueryRes.noMatch, readability := none }

/-- Witness for the amended C3 at a concrete page whose title extraction
throws. -/
theorem detail_title_fallback_witness :
    (crawlDetailPage cfgC3 jsAllInvalid ("http://x/a") (some laC3) (some dpC3w)).map
        Article.title = some laC3.title :=
  (detail_title_fallback cfgC3 jsAllInvalid ("http://x/a") laC3 dpC3w (by decide)).1 rfl

/-! ## Content extractor: claim C8 -/

/-- Detail page in selector mode whose content selector matches nothing. -/
def dpC8 : DetailPage :=
  { titleQ := QueryRes.found "T", contentQ := QueryRes.noMatch,
    authorQ := QueryRes.noMatch, dateQ := QueryRes.noMatch, readability := none }

/-- C8 counterexample: in selector mode, when no element matches the content
selector the article is still produced, but its content field is left
**unset** (JavaScript `undefined`), not assigned the empty string. -/
theorem content_left_unset_cex :
    (crawlDetailPage cfgC3 jsAllInvalid ("http://x/a") none (some dpC8)).map
        Article.content = some none ∧
    (some (none : Option String)) ≠ some (some "") := by
  decide

/-- C8 (amended): in selector mode the content is the text of the first
element matching the content selector; when no element matches or the
extraction throws, the article is still produced with its content left
unset (treated as empty downstream) — never an exception; and in
Readability mode the content-selector query is never consulted (the result
is invariant under it). -/
theorem content_extractor_behavior (cfg : WebsiteConfig) (js : String → DateVal)
    (url : String) (la : Option ListArticle) (p : DetailPage) :
    (useReadabilityOn cfg.detailPage = false → ∀ t, p.contentQ = QueryRes.found t →
      (crawlDetailPage cfg js url la (some p)).map Article.content = some (some t)) ∧
    (useReadabilityOn cfg.detailPage = false →
      (p.contentQ = QueryRes.err ∨ p.contentQ = QueryRes.noMatch) →
      (crawlDetailPage cfg js url la (some p)).map Article.content = some none) ∧
    (useReadabilityOn cfg.detailPage = true → ∀ q,
      crawlDetailPage cfg js url la (some { p with contentQ := q }) =
        crawlDetailPage cfg js url la (some p)) := by
  refine ⟨?_, ?_, ?_⟩
  · intro hr t hq
    simp [crawlDetailPage, hr, hq]
  · intro hr hq
    rcases hq with hq | hq <;> simp [crawlDetailPage, hr, hq]
  · intro hr q
    simp [crawlDetailPage, hr]

/-- Witness for the amended C8 at a concrete selector-mode page with no
content match. -/
theorem content_extractor_behavior_witness :
    (crawlDetailPage cfgC3 jsAllInvalid ("http://x/a") none (some dpC8)).map
        Article.content = some none :=
  (content_extractor_behavior cfgC3 jsAllInvalid ("http://x/a") none dpC8).2.1 rfl
    (Or.inr rfl)

/-! ## Crawl orchestrator: invariants of the two loops -/

/-- The inner loop never drops already-accumulated articles. -/
theorem crawlDetailLoop_sub (w : World) (cfg : WebsiteConfig) (items : List ListArticle) :
    ∀ acc fetched, ∀ x ∈ acc, x ∈ (crawlDetailLoop w cfg items acc fetched).1 := by
  induction items with
  | nil => intro acc fetched x hx; simpa [crawlDetailLoop] using hx
  | cons it rest ih =>
    intro acc fetched x hx
    rw [crawlDetailLoop]
    split
    · exact hx
    · apply ih
      cases hd : detailResult w cfg it with
      | none => simpa [hd] using hx
      | some a =>
        by_cases hg : goodArticle a
        · simp [hd, hg]
          exact Or.inl hx
        · simpa [hd, hg] using hx

/-- Any article the inner loop adds passed the accumulation test. -/
theorem crawlDetailLoop_good (w : World) (cfg : WebsiteConfig) (items : List ListArticle) :
    ∀ acc fetched a, a ∈ (crawlDetailLoop w cfg items acc fetched).1 →
      a ∈ acc ∨ goodArticle a = true := by
  induction items with
  | nil => intro acc fetched a ha; left; simpa [crawlDetailLoop] using ha
  | cons it rest ih =>
    intro acc fetched a ha
    rw [crawlDetailLoop] at ha
    split at ha
    · exact Or.inl ha
    · rcases ih _ _ a ha with h2 | h2
      · cases hd : detailResult w cfg it with
        | none => simp only [hd] at h2; exact Or.inl h2
        | some b =>
          simp only [hd] at h2
          by_cases hg : goodArticle b
          · rw [if_pos hg] at h2
            rcases List.mem_append.mp h2 with h3 | h3
            · exact Or.inl h3
            · right
              rw [List.mem_singleton.mp h3]
              exact hg
          · rw [if_neg hg] at h2; exact Or.inl h2
      · exact Or.inr h2

/-- A candidate fetch the inner loop records either pre-existed or has its
produced-and-complete article accumulated. -/
theorem crawlDetailLoop_fetched (w : World) (cfg : WebsiteConfig) (items : List ListArticle) :
    ∀ acc fetched p, p ∈ (crawlDetailLoop w cfg items acc fetched).2 →
      p ∈ fetched ∨ (∀ a, detailResult w cfg p.1 = some a → goodArticle a = true →
        a ∈ (crawlDetailLoop w cfg items acc fetched).1) := by
  induction items with
  | nil => intro acc fetched p hp; left; simpa [crawlDetailLoop] using hp
  | cons it rest ih =>
    intro acc fetched p hp
    rw [crawlDetailLoop] at hp ⊢
    split at hp
    · exact Or.inl hp
    · rename_i hcap
      rw [if_neg hcap]
      rcases ih _ _ p hp with h2 | h2
      · rcases List.mem_append.mp h2 with h3 | h3
        · exact Or.inl h3
        · right
          intro a hd hg
          have hp1 : p.1 = it := by
            rw [List.mem_singleton.mp h3]
          rw [hp1] at hd
          apply crawlDetailLoop_sub
          simp only [hd, hg, if_true]
          exact List.mem_append.mpr (Or.inr (List.mem_singleton.mpr rfl))
      · exact Or.inr h2

/-- With a positive cap `m`, the inner loop keeps the batch within `m` and
only starts fetches while the running total is below `m`. -/
theorem crawlDetailLoop_cap (w : World) (cfg : WebsiteConfig) (m : Nat)
    (hm : cfg.maxArticles = some m) (hm0 : m ≠ 0) (items : List ListArticle) :
    ∀ acc fetched, acc.length ≤ m →
      (crawlDetailLoop w cfg items acc fetched).1.length ≤ m ∧
      (∀ p ∈ (crawlDetailLoop w cfg items acc fetched).2, p ∈ fetched ∨ p.2 < m) := by
  induction items with
  | nil =>
    intro acc fetched hacc
    refine ⟨by simpa [crawlDetailLoop] using hacc, ?_⟩
    intro p hp
    left
    simpa [crawlDetailLoop] using hp
  | cons it rest ih =>
    intro acc fetched hacc
    rw [crawlDetailLoop]
    split
    · exact ⟨hacc, fun p hp => Or.inl hp⟩
    · rename_i hcap
      have hlt : acc.length < m := by
        simp only [capReached, hm] at hcap
        rw [if_neg hm0] at hcap
        simpa using hcap
      have hlen : (match detailResult w cfg it with
          | some a => if goodArticle a then acc ++ [a] else acc
          | none => acc).length ≤ m := by
        cases hd : detailResult w cfg it with
        | none => simp only []; omega
        | some a =>
          by_cases hg : goodArticle a <;> simp [hg] <;> omega
      have hrec := ih _ (fetched ++ [(it, acc.length)]) hlen
      refine ⟨hrec.1, ?_⟩
      intro p hp
      rcases hrec.2 p hp with h2 | h2
      · rcases List.mem_append.mp h2 with h3 | h3
        · exact Or.inl h3
        · right
          rw [List.mem_singleton.mp h3]
          exact hlt
      · exact Or.inr h2

/-- The outer loop never drops already-accumulated articles. -/
theorem crawlPageLoop_sub (w : World) (cfg : WebsiteConfig) (urls : List String) :
    ∀ acc visited fetched, ∀ x ∈ acc,
      x ∈ (crawlPageLoop w cfg urls acc visited fetched).articles := by
  induction urls with
  | nil => intro acc visited fetched x hx; simpa [crawlPageLoop] using hx
  | cons u rest ih =>
    intro acc visited fetched x hx
    rw [crawlPageLoop]
    split
    · exact hx
    · exact ih _ _ _ x (crawlDetailLoop_sub w cfg _ acc fetched x hx)

/-- Any article the outer loop adds passed the accumulation test. -/
theorem crawlPageLoop_good (w : World) (cfg : WebsiteConfig) (urls : List String) :
    ∀ acc visited fetched a, a ∈ (crawlPageLoop w cfg urls acc visited fetched).articles →
      a ∈ acc ∨ goodArticle a = true := by
  induction urls with
  | nil => intro acc visited fetched a ha; left; simpa [crawlPageLoop] using ha
  | cons u rest ih =>
    intro acc visited fetched a ha
    rw [crawlPageLoop] at ha
    split at ha
    · exact Or.inl ha
    · rcases ih _ _ _ a ha with h2 | h2
      · exact crawlDetailLoop_good w cfg _ acc fetched a h2
      · exact Or.inr h2

/-- A candidate fetch the outer loop records either pre-existed or has its
produced-and-complete article in the final batch. -/
theorem crawlPageLoop_fetched (w : World) (cfg : WebsiteConfig) (urls : List String) :
    ∀ acc visited fetched p, p ∈ (crawlPageLoop w cfg urls acc visited fetched).fetched →
      p ∈ fetched ∨ (∀ a, detailResult w cfg p.1 = some a → goodArticle a = true →
        a ∈ (crawlPageLoop w cfg urls acc visited fetched).articles) := by
  induction urls with
  | nil => intro acc visited fetched p hp; left; simpa [crawlPageLoop] using hp
  | cons u rest ih =>
    intro acc visited fetched p hp
    rw [crawlPageLoop] at hp ⊢
    split at hp
    · exact Or.inl hp
    · rename_i hcap
      rw [if_neg hcap]
      rcases ih _ _ _ p hp with h2 | h2
      · rcases crawlDetailLoop_fetched w cfg _ acc fetched p h2 with h3 | h3
        · exact Or.inl h3
        · right
          intro a hd hg
          exact crawlPageLoop_sub w cfg rest _ _ _ a (h3 a hd hg)
      · exact Or.inr h2

/-- With a positive cap `m`, the outer loop keeps the batch within `m` and
only visits pages / starts fetches while the running total is below `m`. -/
theorem crawlPageLoop_cap (w : World) (cfg : WebsiteConfig) (m : Nat)
    (hm : cfg.maxArticles = some m) (hm0 : m ≠ 0) (urls : List String) :
    ∀ acc visited fetched, acc.length ≤ m →
      (crawlPageLoop w cfg urls acc visited fetched).articles.length ≤ m ∧
      (∀ p ∈ (crawlPageLoop w cfg urls acc visited fetched).visited, p ∈ visited ∨ p.2 < m) ∧
      (∀ p ∈ (crawlPageLoop w cfg urls acc visited fetched).fetched, p ∈ fetched ∨ p.2 < m) := by
  induction urls with
  | nil =>
    intro acc visited fetched hacc
    refine ⟨by simpa [crawlPageLoop] using hacc, ?_, ?_⟩
    · intro p hp; left; simpa [crawlPageLoop] using hp
    · intro p hp; left; simpa [crawlPageLoop] using hp
  | cons u rest ih =>
    intro acc visited fetched hacc
    rw [crawlPageLoop]
    split
    · exact ⟨hacc, fun p hp => Or.inl hp, fun p hp => Or.inl hp⟩
    · rename_i hcap
      have hlt : acc.length < m := by
        simp only [capReached, hm] at hcap
        rw [if_neg hm0] at hcap
        simpa using hcap
      have hinner := crawlDetailLoop_cap w cfg m hm hm0
        (crawlListPage cfg.listPage cfg.baseUrl w.newURL (w.listPages u)) acc fetched hacc
      have hrec := ih
        (crawlDetailLoop w cfg (crawlListPage cfg.listPage cfg.baseUrl w.newURL (w.listPages u)) acc fetched).1
        (visited ++ [(u, acc.length)])
        (crawlDetailLoop w cfg (crawlListPage cfg.listPage cfg.baseUrl w.newURL (w.listPages u)) acc fetched).2
        hinner.1
      refine ⟨hrec.1, ?_, ?_⟩
      · intro p hp
        rcases hrec.2.1 p hp with h2 | h2
        · rcases List.mem_append.mp h2 with h3 | h3
          · exact Or.inl h3
          · right
            rw [List.mem_singleton.mp h3]
            exact hlt
        · exact Or.inr h2
      · intro p hp
        rcases hrec.2.2 p hp with h2 | h2
        · rcases hinner.2 p h2 with h3 | h3
          · exact Or.inl h3
          · exact Or.inr h3
        · exact Or.inr h2

/-! ## Crawl orchestrator: claims C1, C2, C10 -/

/-- C1: every article in the batch returned by `crawl` has a non-empty title
and non-empty content, and conversely every article a performed detail-page
extraction produced with both fields non-empty is in the batch (an article
is accumulated if and only if both fields are non-empty). -/
theorem crawl_accumulates_iff (w : World) (cfg : WebsiteConfig) :
    (∀ a ∈ (crawl w cfg).articles, a.title ≠ "" ∧ contentTruthy a.content = true) ∧
    (∀ p ∈ (crawl w cfg).fetched, ∀ a, detailResult w cfg p.1 = some a →
      goodArticle a = true → a ∈ (crawl w cfg).articles) := by
  constructor
  · intro a ha
    rcases crawlPageLoop_good w cfg (getPageUrls cfg) [] [] [] a ha with h | h
    · exact absurd h (List.not_mem_nil a)
    · simpa [goodArticle, Bool.and_eq_true] using h
  · intro p hp a hd hg
    rcases crawlPageLoop_fetched w cfg (getPageUrls cfg) [] [] [] p hp with h | h
    · exact absurd h (List.not_mem_nil p)
    · exact h a hd hg

/-- C2 (amended to a positive cap): with `maxArticles = m > 0`, `crawl`
returns at most `m` articles, and every list-page visit and every detail
fetch starts while the accumulated count is still below `m` (so nothing is
visited or fetched once the cap is reached). -/
theorem crawl_cap_enforced (w : World) (cfg : WebsiteConfig) (m : Nat)
    (hm : cfg.maxArticles = some m) (hm0 : 0 < m) :
    (crawl w cfg).articles.length ≤ m ∧
    (∀ p ∈ (crawl w cfg).visited, p.2 < m) ∧
    (∀ p ∈ (crawl w cfg).fetched, p.2 < m) := by
  have h := crawlPageLoop_cap w cfg m hm (by omega) (getPageUrls cfg) [] [] [] (by simp)
  refine ⟨h.1, ?_, ?_⟩
  · intro p hp
    rcases h.2.1 p hp with h2 | h2
    · exact absurd h2 (List.not_mem_nil p)
    · exact h2
  · intro p hp
    rcases h.2.2 p hp with h2 | h2
    · exact absurd h2 (List.not_mem_nil p)
    · exact h2

/-- With a zero cap the inner loop fetches every candidate, in order. -/
theorem crawlDetailLoop_zero (w : World) (cfg : WebsiteConfig)
    (h : cfg.maxArticles = some 0) (items : List ListArticle) :
    ∀ acc fetched,
      (crawlDetailLoop w cfg items acc fetched).2.map Prod.fst =
        fetched.map Prod.fst ++ items := by
  induction items with
  | nil => intro acc fetched; simp [crawlDetailLoop]
  | cons it rest ih =>
    intro acc fetched
    rw [crawlDetailLoop]
    rw [if_neg (by simp [capReached, h])]
    rw [ih]
    simp

/-- With a zero cap the outer loop visits every page and fetches every
candidate of every page, in order. -/
theorem crawlPageLoop_zero (w : World) (cfg : WebsiteConfig)
    (h : cfg.maxArticles = some 0) (urls : List String) :
    ∀ acc visited fetched,
      (crawlPageLoop w cfg urls acc visited fetched).visited.map Prod.fst =
        visited.map Prod.fst ++ urls ∧
      (crawlPageLoop w cfg urls acc visited fetched).fetched.map Prod.fst =
        fetched.map Prod.fst ++ urls.flatMap
          (fun u => crawlListPage cfg.listPage cfg.baseUrl w.newURL (w.listPages u)) := by
  induction urls with
  | nil => intro acc visited fetched; simp [crawlPageLoop]
  | cons u rest ih =>
    intro acc visited fetched
    rw [crawlPageLoop]
    rw [if_neg (by simp [capReached, h])]
    constructor
    · rw [(ih _ _ _).1]
      simp
    · rw [(ih _ _ _).2, crawlDetailLoop_zero w cfg h]
      simp

/-- A zero cap and an absent cap run the inner loop identically. -/
theorem crawlDetailLoop_zero_eq (w : World) (cfg : WebsiteConfig)
    (h : cfg.maxArticles = some 0) (items : List ListArticle) :
    ∀ acc fetched, crawlDetailLoop w cfg items acc fetched =
      crawlDetailLoop w { cfg with maxArticles := none } items acc fetched := by
  induction items with
  | nil => intro acc fetched; rfl
  | cons it rest ih =>
    intro acc fetched
    rw [crawlDetailLoop, crawlDetailLoop]
    rw [if_neg (by simp [capReached, h]), if_neg (by simp [capReached])]
    exact ih _ _

/-- A zero cap and an absent cap run the outer loop identically. -/
theorem crawlPageLoop_zero_eq (w : World) (cfg : WebsiteConfig)
    (h : cfg.maxArticles = some 0) (urls : List String) :
    ∀ acc visited fetched, crawlPageLoop w cfg urls acc visited fetched =
      crawlPageLoop w { cfg with maxArticles := none } urls acc visited fetched := by
  induction urls with
  | nil => intro acc visited fetched; rfl
  | cons u rest ih =>
    intro acc visited fetched
    rw [crawlPageLoop, crawlPageLoop]
    rw [if_neg (by simp [capReached, h]), if_neg (by simp [capReached])]
    simp only [← crawlDetailLoop_zero_eq w cfg h]
    exact ih _ _ _

/-- C10: with `maxArticles = 0` the cap check is falsy, so `crawl` enforces
no cap at all: every list page the pagination resolver yields is visited,
every candidate of every page has its detail page fetched, and the whole run
is identical to a run with `maxArticles` unset. -/
theorem crawl_zero_cap_no_limit (w : World) (cfg : WebsiteConfig)
    (h : cfg.maxArticles = some 0) :
    (crawl w cfg).visited.map Prod.fst = getPageUrls cfg ∧
    (crawl w cfg).fetched.map Prod.fst =
      (getPageUrls cfg).flatMap
        (fun u => crawlListPage cfg.listPage cfg.baseUrl w.newURL (w.listPages u)) ∧
    crawl w cfg = crawl w { cfg with maxArticles := none } := by
  refine ⟨?_, ?_, ?_⟩
  · simpa using (crawlPageLoop_zero w cfg h (getPageUrls cfg) [] [] []).1
  · simpa using (crawlPageLoop_zero w cfg h (getPageUrls cfg) [] [] []).2
  · show crawlPageLoop w cfg (getPageUrls cfg) [] [] [] =
      crawlPageLoop w { cfg with maxArticles := none }
        (getPageUrls { cfg with maxArticles := none }) [] [] []
    rw [← (show getPageUrls cfg = getPageUrls { cfg with maxArticles := none } from rfl)]
    exact crawlPageLoop_zero_eq w cfg h (getPageUrls cfg) [] [] []

/-! ## Concrete crawl runs for the orchestrator claims -/

/-- Detail-page selector set in selector mode, for the concrete runs. -/
def dpcPlain : DetailPageConfig :=
  { titleSelector := "h1", contentSelector := ".content", authorSelector := none,
    dateSelector := none, useReadability := none }

/-- A detail page yielding a non-empty title and non-empty content. -/
def dpGoodPage : DetailPage :=
  { titleQ := QueryRes.found "Detail Title", contentQ := QueryRes.found "Body text",
    authorQ := QueryRes.noMatch, dateQ := QueryRes.noMatch, readability := none }

/-- A world with one list page carrying one resolvable candidate. -/
def wOne : World :=
  { listPages := fun u => if u = "http://s/list" then some [eC7a] else none,
    detailPages := fun _ => some dpGoodPage,
    newURL := fun h b => some (b ++ h),
    js := jsAllInvalid }

/-- Site configuration for the concrete runs (no pagination, no cap). -/
def cfgOne : WebsiteConfig :=
  { name := "s", baseUrl := "http://x", url := "http://s/list",
    listPage := lpC7, detailPage := dpcPlain,
    pagination := none, delay := none, userAgent := none,
    maxArticles := none, enabled := none }

/-- The article the run over `wOne` produces. -/
def aOne : Article :=
  { title := "Detail Title", url := "http://x/a", source := "s",
    content := some "Body text", author := none, publish_date := none }

/-- Witness for C1: on a concrete run, the accumulated article is complete
and the fetched candidate's complete article is in the batch. -/
theorem crawl_accumulates_iff_witness :
    (aOne.title ≠ "" ∧ contentTruthy aOne.content = true) ∧
    aOne ∈ (crawl wOne cfgOne).articles :=
  ⟨(crawl_accumulates_iff wOne cfgOne).1 aOne (by decide),
   (crawl_accumulates_iff wOne cfgOne).2 (ListArticle.mk ("Title A") ("http://x/a") none none, 0)
     (by decide) aOne (by decide) (by decide)⟩

/-- `cfgOne` with the cap explicitly set to zero. -/
def cfgZeroCap : WebsiteConfig := { cfgOne with maxArticles := some 0 }

/-- C2 counterexample: with `maxArticles` **set** to `0`, `crawl` does not
return at most `maxArticles` articles — the falsy `0` disables the cap and a
complete article is still accumulated, so the claim fails for this set
value. -/
theorem crawl_cap_zero_cex :
    cfgZeroCap.maxArticles = some 0 ∧
    ¬ ((crawl wOne cfgZeroCap).articles.length ≤ 0) := by
  decide

/-- A list-page element with a resolvable title and an absolute link derived
from the given suffix. -/
def eCand (s : String) : ListElement :=
  { ownText := "Title " ++ s, titleQ := none,
    linkQ := some (some ("http://x/" ++ s)), dateQ := none, descQ := none }

/-- A world with one list page carrying five resolvable candidates. -/
def wFive : World :=
  { listPages := fun u =>
      if u = "http://s/list" then
        some [eCand ("1"), eCand ("2"), eCand ("3"), eCand ("4"), eCand ("5")]
      else none,
    detailPages := fun _ => some dpGoodPage,
    newURL := fun h b => some (b ++ h),
    js := jsAllInvalid }

/-- `cfgOne` with `maxArticles = 2`. -/
def cfgTwoCap : WebsiteConfig := { cfgOne with maxArticles := some 2 }

/-- Witness for the amended C2 on the reference scenario: cap 2 with a list
page of five candidates. -/
theorem crawl_cap_enforced_witness :
    (crawl wFive cfgTwoCap).articles.length ≤ 2 ∧
    (∀ p ∈ (crawl wFive cfgTwoCap).visited, p.2 < 2) ∧
    (∀ p ∈ (crawl wFive cfgTwoCap).fetched, p.2 < 2) :=
  crawl_cap_enforced wFive cfgTwoCap 2 rfl (by omega)

/-- Witness for C10 on the five-candidate world with a zero cap. -/
theorem crawl_zero_cap_no_limit_witness :
    (crawl wFive cfgZeroCap).visited.map Prod.fst = getPageUrls cfgZeroCap ∧
    (crawl wFive cfgZeroCap).fetched.map Prod.fst =
      (getPageUrls cfgZeroCap).flatMap
        (fun u => crawlListPage cfgZeroCap.listPage cfgZeroCap.baseUrl
          wFive.newURL (wFive.listPages u)) ∧
    crawl wFive cfgZeroCap = crawl wFive { cfgZeroCap with maxArticles := none } :=
  crawl_zero_cap_no_limit wFive cfgZeroCap rfl

/-! ## Summarization client: claim C9 -/

/-- Membership after `Map.set`: an entry was already present or carries the
written key. -/
theorem mem_mapSet (m : List (String × String)) (k v : String) (kv : String × String)
    (h : kv ∈ mapSet m k v) : kv ∈ m ∨ kv.1 = k := by
  unfold mapSet at h
  split at h
  · rcases List.mem_map.mp h with ⟨p, hp, he⟩
    subst he
    by_cases hpk : p.1 = k
    · right; simp [hpk]
    · left; simpa [hpk] using hp
  · rcases List.mem_append.mp h with h2 | h2
    · exact Or.inl h2
    · right; rw [List.mem_singleton.mp h2]

/-- Without an API credential, `generateSummary` is a no-op that issues no
backend call. -/
theorem generateSummary_no_key (backend : String → Nat → BackendResp) :
    ∀ fuel attempt a, generateSummary ("") backend fuel attempt a = (none, []) := by
  intro fuel attempt a
  cases fuel <;> (rw [generateSummary]; simp)

/-- For an article with falsy content, `generateSummary` returns no summary
and issues no backend call. -/
theorem generateSummary_skip_empty (apiKey : String) (backend : String → Nat → BackendResp) :
    ∀ fuel attempt a, contentTruthy a.content = false →
      generateSummary apiKey backend fuel attempt a = (none, []) := by
  intro fuel attempt a h
  cases fuel <;> (rw [generateSummary]; by_cases hk : apiKey = "") <;> simp [hk, h]

/-- Every backend call `generateSummary` issues is for its own article. -/
theorem generateSummary_calls_eq (apiKey : String) (backend : String → Nat → BackendResp) :
    ∀ fuel attempt a x, x ∈ (generateSummary apiKey backend fuel attempt a).2 → x = a := by
  intro fuel
  induction fuel with
  | zero =>
    intro attempt a x hx
    rw [generateSummary] at hx
    repeat' split at hx
    all_goals simp_all
  | succ k ih =>
    intro attempt a x hx
    rw [generateSummary] at hx
    repeat' split at hx
    all_goals try simp_all
    rcases hx with h2 | h2
    · exact h2
    · exact ih (attempt + 1) a x h2

/-- Without an API credential, the batch loop passes its accumulators
through untouched. -/
theorem summaryBatchLoop_no_key (backend : String → Nat → BackendResp) (fuel : Nat) :
    ∀ rest m calls, summaryBatchLoop ("") backend fuel rest m calls = (m, calls) := by
  intro rest
  induction rest with
  | nil => intro m calls; rfl
  | cons a rest ih =>
    intro m calls
    rw [summaryBatchLoop]
    split
    · exact ih m calls
    · simp only [generateSummary_no_key backend fuel 0 a, List.append_nil]
      exact ih m calls

/-- Batch-loop invariant: every mapping entry stems from a batch article
with truthy content, and every backend call is for an article with truthy
content. -/
theorem summaryBatchLoop_spec (apiKey : String) (backend : String → Nat → BackendResp)
    (fuel : Nat) (S : List Article) :
    ∀ rest m calls, (∀ a ∈ rest, a ∈ S) →
      (∀ kv ∈ m, ∃ a, a ∈ S ∧ a.url = kv.1 ∧ contentTruthy a.content = true) →
      (∀ x ∈ calls, contentTruthy x.content = true) →
      (∀ kv ∈ (summaryBatchLoop apiKey backend fuel rest m calls).1,
        ∃ a, a ∈ S ∧ a.url = kv.1 ∧ contentTruthy a.content = true) ∧
      (∀ x ∈ (summaryBatchLoop apiKey backend fuel rest m calls).2,
        contentTruthy x.content = true) := by
  intro rest
  induction rest with
  | nil =>
    intro m calls hS hm hc
    exact ⟨by simpa [summaryBatchLoop] using hm, by simpa [summaryBatchLoop] using hc⟩
  | cons a rest ih =>
    intro m calls hS hm hc
    rw [summaryBatchLoop]
    split
    · exact ih m calls (fun x hx => hS x (List.mem_cons_of_mem a hx)) hm hc
    · apply ih
      · intro x hx
        exact hS x (List.mem_cons_of_mem a hx)
      · intro kv hkv
        cases hr : (generateSummary apiKey backend fuel 0 a).1 with
        | none =>
          simp only [hr] at hkv
          exact hm kv hkv
        | some s =>
          simp only [hr] at hkv
          by_cases hs : s = ""
          · rw [if_pos hs] at hkv
            exact hm kv hkv
          · rw [if_neg hs] at hkv
            rcases mem_mapSet m a.url s kv hkv with h2 | h2
            · exact hm kv h2
            · refine ⟨a, hS a (List.mem_cons_self a rest), h2.symm, ?_⟩
              by_cases hct : contentTruthy a.content
              · exact hct
              · exfalso
                have hskip := generateSummary_skip_empty apiKey backend fuel 0 a
                  (by simpa using hct)
                rw [hskip] at hr
                exact Option.noConfusion hr
      · intro x hx
        rcases List.mem_append.mp hx with h2 | h2
        · exact hc x h2
        · have hxa := generateSummary_calls_eq apiKey backend fuel 0 a x h2
          subst hxa
          by_cases hct : contentTruthy x.content
          · exact hct
          · exfalso
            have hskip := generateSummary_skip_empty apiKey backend fuel 0 x
              (by simpa using hct)
            rw [hskip] at h2
            exact absurd h2 (List.not_mem_nil x)

/-- C9: a batch article with empty (falsy) content never contributes a key
to the returned mapping — every key stems from a batch article with
non-empty content — and the backend is never called for an empty-content
article; with no API credential configured, the client returns the empty
mapping and issues no backend call, for every batch. -/
theorem summarizeBatch_skips (apiKey : String) (backend : String → Nat → BackendResp)
    (fuel : Nat) (articles : List Article) :
    (∀ kv ∈ (generateSummaryBatch apiKey backend fuel articles).1,
      ∃ a, a ∈ articles ∧ a.url = kv.1 ∧ contentTruthy a.content = true) ∧
    (∀ x ∈ (generateSummaryBatch apiKey backend fuel articles).2,
      contentTruthy x.content = true) ∧
    (apiKey = "" → generateSummaryBatch apiKey backend fuel articles = ([], [])) := by
  have h := summaryBatchLoop_spec apiKey backend fuel articles articles [] []
    (fun a ha => ha) (by simp) (by simp)
  refine ⟨h.1, h.2, ?_⟩
  intro hk
  subst hk
  exact summaryBatchLoop_no_key backend fuel articles [] []

/-- A backend that always answers successfully, for the C9 witness. -/
def backendC9 : String → Nat → BackendResp := fun _ _ => BackendResp.ok ("summary")

/-- Witness for C9: with no API credential, a concrete batch yields the
empty mapping and no backend call. -/
theorem summarizeBatch_skips_witness :
    generateSummaryBatch ("") backendC9 1 [aOne] = ([], []) :=
  (summarizeBatch_skips ("") backendC9 1 [aOne]).2.2 rfl
